import Mathlib

/-!
Verification of the `fs` filesystem abstraction library.

The development shallowly embeds the core of the library (the capability-gated
filesystem façade, the recursive directory walker with its three callback
phases, the visit-order comparators, and the line read/write helpers) and
proves the specified properties about it.

Conventions of the embedding:
* Go errors (`errors.Error`) become the inductive type `Err`; `nil` error
  becomes `none` / `Except.ok`.
* A Go function returning `(T, errors.Error)` becomes `Except Err T`.
* The Go driver value is a record of optional method implementations; a Go
  type-assertion to a capability interface succeeds exactly when all methods
  of that interface are present (Go interface satisfaction is method-set
  inclusion, and the capability interfaces are nested by embedding).
* `panic` becomes `Option.none` of the surrounding constructor.
* File handles are modelled by their readable content (a `String`).
-/

/-- Error values of the library (filesystem.go var block): each Go sentinel
error template becomes one constructor; `notSupported` carries the name of
the attempted operation, as `ErrNotSupported.Args(op)` does. -/
inductive Err where
  | notSupported (op : String)
  | notExists (p : String)
  | fileNotExists (p : String)
  | dirNotExists (p : String)
  | accessDenied (p : String)
  | notEmpty
  | generic (msg : String)
  | sentinel (n : Nat)
deriving DecidableEq, Repr

/-- FileInfo: metadata of one directory entry (interface FileInfo with
Name(), Size(), IsDir()). -/
structure FileInfo where
  name : String
  size : Int
  isDir : Bool
deriving DecidableEq, Repr

/-- File is the instance object for an opened file; modelled by its
readable content. -/
abbrev File : Type := String

/-- OpenFlags is an int bitset (type OpenFlags int). -/
abbrev OpenFlags : Type := Nat

/-- OpenReadOnly = os.O_RDONLY = 0. -/
def OpenReadOnly : OpenFlags := 0
/-- OpenWriteOnly = os.O_WRONLY = 1. -/
def OpenWriteOnly : OpenFlags := 1
/-- OpenReadWrite = os.O_RDWR = 2. -/
def OpenReadWrite : OpenFlags := 2

/-- Access returns only the access flag (mask O_RDONLY|O_WRONLY|O_RDWR = 3). -/
def OpenFlags.Access (flag : OpenFlags) : OpenFlags :=
  Nat.land flag (Nat.lor (Nat.lor OpenReadOnly OpenWriteOnly) OpenReadWrite)

/-- IsRead returns whether the given flags require read access. -/
def OpenFlags.IsRead (flag : OpenFlags) : Bool :=
  flag.Access == OpenReadOnly || flag.Access == OpenReadWrite

/-- IsWrite returns whether the given flags require write access. -/
def OpenFlags.IsWrite (flag : OpenFlags) : Bool :=
  flag.Access == OpenWriteOnly || flag.Access == OpenReadWrite

/-- Create sets os.O_CREATE = 64. -/
def OpenFlags.Create (flag : OpenFlags) : OpenFlags := Nat.lor flag 64

/-- Truncate sets os.O_TRUNC = 512. -/
def OpenFlags.Truncate (flag : OpenFlags) : OpenFlags := Nat.lor flag 512

/-- A backend driver value: a record of the optional method implementations
its dynamic type provides.  Each method present is a pure model of the
corresponding driver call (result or error). -/
structure Driver where
  exists_ : Option (String → Except Err Bool)
  isFile : Option (String → Except Err Bool)
  isDir : Option (String → Except Err Bool)
  stat : Option (String → Except Err FileInfo)
  readDir : Option (String → Except Err (List FileInfo))
  openFile : Option (String → OpenFlags → Except Err File)
  createDirectory : Option (String → Except Err Unit)
  deleteFile : Option (String → Except Err Unit)
  deleteDirectory : Option (String → Bool → Except Err Unit)
  moveFile : Option (String → String → Except Err Unit)
  moveDir : Option (String → String → Except Err Unit)
  getTempFile : Option (String → Except Err String)
  getTempDir : Option (String → Except Err String)

/-- Type assertion to NavigationFileSystemDriver: all five navigation
methods are in the method set. -/
def NavigationDriverOk (d : Driver) : Bool :=
  d.exists_.isSome && d.isFile.isSome && d.isDir.isSome &&
  d.stat.isSome && d.readDir.isSome

/-- Type assertion to ReadFileSystemDriver (embeds Navigation, adds
OpenFile). -/
def ReadDriverOk (d : Driver) : Bool :=
  NavigationDriverOk d && d.openFile.isSome

/-- Type assertion to ReadWriteFileSystemDriver (embeds Read, adds
CreateDirectory, DeleteFile, DeleteDirectory, MoveFile, MoveDir). -/
def ReadWriteDriverOk (d : Driver) : Bool :=
  ReadDriverOk d && d.createDirectory.isSome && d.deleteFile.isSome &&
  d.deleteDirectory.isSome && d.moveFile.isSome && d.moveDir.isSome

/-- Type assertion to TempFileSystemDriver (embeds ReadWrite, adds
GetTempFile, GetTempDir). -/
def TempDriverOk (d : Driver) : Bool :=
  ReadWriteDriverOk d && d.getTempFile.isSome && d.getTempDir.isSome

/-- Calling a driver method through a possibly-nil interface value: the
`none` branch corresponds to a Go nil-interface method call (a panic),
unreachable behind the capability guards. -/
def callD1 {α : Type} (f : Option (String → Except Err α)) (p : String) :
    Except Err α :=
  match f with
  | some g => g p
  | none => .error (.generic "nil driver")

/-- Calling a two-argument driver method, see callD1. -/
def callD2 {α β : Type} (f : Option (String → β → Except Err α)) (p : String)
    (b : β) : Except Err α :=
  match f with
  | some g => g p b
  | none => .error (.generic "nil driver")

/-- DefaultLineDelimiter = "\n". -/
def DefaultLineDelimiter : String := "\n"

/-- FileSystem: the façade, holding the driver (the four stored driver
fields of the Go struct are this one value seen at four interfaces), the
four capability flags established at construction, and the line
separator. -/
structure FileSystem where
  driver : Driver
  canNavigate : Bool
  canRead : Bool
  canWrite : Bool
  canTemp : Bool
  LineSeparator : String

/-- NewWithDriver: probes the driver against the capability interfaces;
panics (here: `none`) when the driver satisfies none of read, read-write
and temp; otherwise stores the probe results as the capability flags. -/
def NewWithDriver (d : Driver) : Option FileSystem :=
  if !ReadDriverOk d && !ReadWriteDriverOk d && !TempDriverOk d then
    none
  else
    some ⟨d, NavigationDriverOk d, ReadDriverOk d, ReadWriteDriverOk d,
      TempDriverOk d, DefaultLineDelimiter⟩

/-- Exists returns true, if the given path is a file or directory. -/
def FileSystem.Exists (fs : FileSystem) (p : String) : Except Err Bool :=
  if !fs.canNavigate then .error (.notSupported "Exists")
  else callD1 fs.driver.exists_ p

/-- IsFile returns true, if the given path is a file. -/
def FileSystem.IsFile (fs : FileSystem) (p : String) : Except Err Bool :=
  if !fs.canNavigate then .error (.notSupported "IsFile")
  else callD1 fs.driver.isFile p

/-- IsDir returns true, if the given path is a directory. -/
def FileSystem.IsDir (fs : FileSystem) (p : String) : Except Err Bool :=
  if !fs.canNavigate then .error (.notSupported "IsDir")
  else callD1 fs.driver.isDir p

/-- Stat returns file or directory stats for a given path. -/
def FileSystem.Stat (fs : FileSystem) (p : String) : Except Err FileInfo :=
  if !fs.canNavigate then .error (.notSupported "Stat")
  else callD1 fs.driver.stat p

/-- ReadDir returns all files and directories contained in a directory. -/
def FileSystem.ReadDir (fs : FileSystem) (p : String) :
    Except Err (List FileInfo) :=
  if !fs.canNavigate then .error (.notSupported "ReadDir")
  else callD1 fs.driver.readDir p

/-- Open opens a file instance for reading and returns the handle. -/
def FileSystem.Open (fs : FileSystem) (p : String) : Except Err File :=
  if !fs.canRead then .error (.notSupported "Open")
  else callD2 fs.driver.openFile p OpenReadOnly

/-- OpenFile opens a general purpose file instance based on flags. -/
def FileSystem.OpenFile (fs : FileSystem) (p : String) (flags : OpenFlags) :
    Except Err File :=
  if flags.IsRead && !fs.canRead then .error (.notSupported "OpenFile (read)")
  else if flags.IsWrite && !fs.canWrite then
    .error (.notSupported "OpenFile (write)")
  else callD2 fs.driver.openFile p flags

/-- ReadBytes returns all bytes contained in a file (Open, then ReadAll on
the handle, which yields the content of the handle in this model). -/
def FileSystem.ReadBytes (fs : FileSystem) (p : String) : Except Err String :=
  if !fs.canRead then .error (.notSupported "ReadBytes")
  else fs.Open p

/-- ReadString returns the file content as string. -/
def FileSystem.ReadString (fs : FileSystem) (p : String) : Except Err String :=
  if !fs.canRead then .error (.notSupported "ReadString")
  else fs.ReadBytes p

/-- Sequential left-to-right replacement of the two-character pattern CR LF
by LF, the first strings.Replace pass of ReadLines. -/
def replaceCRLF : List Char → List Char
  | [] => []
  | '\r' :: '\n' :: rest => '\n' :: replaceCRLF rest
  | c :: rest => c :: replaceCRLF rest

/-- Replacement of every remaining CR by LF, the second strings.Replace
pass of ReadLines. -/
def replaceCR (l : List Char) : List Char :=
  l.map (fun c => if c = '\r' then '\n' else c)

/-- strings.Split on LF: the list of maximal LF-free segments; an empty
input yields one empty segment. -/
def splitLF : List Char → List (List Char)
  | [] => [[]]
  | '\n' :: rest => [] :: splitLF rest
  | c :: rest =>
    match splitLF rest with
    | [] => [[c]]
    | s :: ss => (c :: s) :: ss

/-- strings.Join with the given separator. -/
def joinSep (sep : List Char) : List (List Char) → List Char
  | [] => []
  | [l] => l
  | l :: rest => l ++ sep ++ joinSep sep rest

/-- The content-to-lines transformation of ReadLines (lines 395-397 of the
source): collapse CR LF to LF, collapse lone CR to LF, split on LF. -/
def readLinesOfContent (content : String) : List String :=
  (splitLF (replaceCR (replaceCRLF content.toList))).map List.asString

/-- The lines-to-content transformation of WriteLines: strings.Join of the
lines with the separator. -/
def writeLinesContent (sep : String) (lines : List String) : String :=
  (joinSep sep.toList (lines.map String.toList)).asString

/-- ReadLines returns all lines contained in a text file. -/
def FileSystem.ReadLines (fs : FileSystem) (p : String) :
    Except Err (List String) :=
  if !fs.canRead then .error (.notSupported "ReadLines")
  else (fs.ReadString p).map readLinesOfContent

/-- CreateFile creates a new file (or truncates an existing) and returns
the file instance handle. -/
def FileSystem.CreateFile (fs : FileSystem) (p : String) : Except Err File :=
  if !fs.canWrite then .error (.notSupported "CreateFile")
  else callD2 fs.driver.openFile p (OpenReadWrite.Create.Truncate)

/-- CreateDirectory creates a new directory and all parent directories. -/
def FileSystem.CreateDirectory (fs : FileSystem) (p : String) :
    Except Err Unit :=
  if !fs.canWrite then .error (.notSupported "CreateDirectory")
  else callD1 fs.driver.createDirectory p

/-- WriteBytes writes all bytes to a file (CreateFile, then Write on the
handle; the successful write itself is abstract in this model). -/
def FileSystem.WriteBytes (fs : FileSystem) (p : String)
    (_content : String) : Except Err Unit :=
  if !fs.canWrite then .error (.notSupported "WriteBytes")
  else (fs.CreateFile p).map (fun _ => ())

/-- WriteString writes a string to a file. -/
def FileSystem.WriteString (fs : FileSystem) (p content : String) :
    Except Err Unit :=
  if !fs.canWrite then .error (.notSupported "WriteString")
  else fs.WriteBytes p content

/-- WriteLines writes all lines to a file joined by the line separator. -/
def FileSystem.WriteLines (fs : FileSystem) (p : String)
    (lines : List String) : Except Err Unit :=
  if !fs.canWrite then .error (.notSupported "WriteLines")
  else fs.WriteBytes p (writeLinesContent fs.LineSeparator lines)

/-- DeleteFile deletes a file. -/
def FileSystem.DeleteFile (fs : FileSystem) (p : String) : Except Err Unit :=
  if !fs.canWrite then .error (.notSupported "DeleteFile")
  else callD1 fs.driver.deleteFile p

/-- DeleteDirectory deletes an empty directory, or any directory when
recursive is set. -/
def FileSystem.DeleteDirectory (fs : FileSystem) (p : String)
    (recursive : Bool) : Except Err Unit :=
  if !fs.canWrite then .error (.notSupported "DeleteDirectory")
  else callD2 fs.driver.deleteDirectory p recursive

/-- Join merges two path parts (path.Join): for the clean, separator-free
segments produced by directory listings this is concatenation with the
default path delimiter. -/
def pathJoin (a b : String) : String := a ++ "/" ++ b

/-- The deletion loop of CleanDir over the listed children. -/
def cleanDirLoop (fs : FileSystem) (dir : String) : List FileInfo →
    Except Err Unit
  | [] => .ok ()
  | f :: rest =>
    if f.isDir then
      match fs.DeleteDirectory (pathJoin dir f.name) true with
      | .error e => .error e
      | .ok _ => cleanDirLoop fs dir rest
    else
      match fs.DeleteFile (pathJoin dir f.name) with
      | .error e => .error e
      | .ok _ => cleanDirLoop fs dir rest

/-- CleanDir removes all files and directories from a directory. -/
def FileSystem.CleanDir (fs : FileSystem) (dir : String) : Except Err Unit :=
  if !fs.canWrite then .error (.notSupported "CleanDir")
  else
    match fs.ReadDir dir with
    | .error e => .error e
    | .ok files => cleanDirLoop fs dir files

/-- MoveFile moves a file to a new location. -/
def FileSystem.MoveFile (fs : FileSystem) (src dst : String) :
    Except Err Unit :=
  if !fs.canWrite then .error (.notSupported "MoveFile")
  else callD2 fs.driver.moveFile src dst

/-- MoveDir moves a directory to a new location. -/
def FileSystem.MoveDir (fs : FileSystem) (src dst : String) :
    Except Err Unit :=
  if !fs.canWrite then .error (.notSupported "MoveDir")
  else callD2 fs.driver.moveDir src dst

/-- Move moves a file or directory, dispatching on the source type. -/
def FileSystem.Move (fs : FileSystem) (src dst : String) : Except Err Unit :=
  if !fs.canWrite then .error (.notSupported "Move")
  else
    match fs.IsFile src with
    | .error e => .error e
    | .ok true => fs.MoveFile src dst
    | .ok false =>
      match fs.IsDir src with
      | .error e => .error e
      | .ok true => fs.MoveDir src dst
      | .ok false => .error (.notExists src)

/-- The per-child loop of MoveAll. -/
def moveAllLoop (fs : FileSystem) (src dst : String) : List FileInfo →
    Except Err Unit
  | [] => .ok ()
  | f :: rest =>
    if f.isDir then
      match fs.MoveDir (pathJoin src f.name) (pathJoin dst f.name) with
      | .error e => .error e
      | .ok _ => moveAllLoop fs src dst rest
    else
      match fs.MoveFile (pathJoin src f.name) (pathJoin dst f.name) with
      | .error e => .error e
      | .ok _ => moveAllLoop fs src dst rest

/-- MoveAll moves all entries contained in src to dst (lists src through
the read driver directly). -/
def FileSystem.MoveAll (fs : FileSystem) (src dst : String) :
    Except Err Unit :=
  if !fs.canWrite then .error (.notSupported "MoveAll")
  else
    match callD1 fs.driver.readDir src with
    | .error e => .error e
    | .ok files => moveAllLoop fs src dst files

/-- CopyFile clones a file and overwrites the existing one (Open source,
CreateFile target, io.Copy; the byte transfer is abstract here). -/
def FileSystem.CopyFile (fs : FileSystem) (src dst : String) :
    Except Err Unit :=
  if !fs.canWrite then .error (.notSupported "CopyFile")
  else
    match fs.Open src with
    | .error e => .error e
    | .ok _ =>
      match fs.CreateFile dst with
      | .error e => .error e
      | .ok _ => .ok ()

mutual

/-- CopyDir recursively clones a directory; the fuel argument bounds the
recursion depth of the Go function, which terminates on finite directory
trees. -/
def FileSystem.CopyDir (fs : FileSystem) (fuel : Nat) (src dst : String) :
    Except Err Unit :=
  if !fs.canWrite then .error (.notSupported "CopyDir")
  else
    match fs.driver.createDirectory with
    | none => .error (.generic "nil driver")
    | some mk =>
      match mk dst with
      | .error e => .error e
      | .ok _ =>
        match callD1 fs.driver.readDir src with
        | .error e => .error e
        | .ok files => copyDirLoop fs fuel src dst files
termination_by (fuel, 1, 0)

/-- The per-child loop of CopyDir. -/
def copyDirLoop (fs : FileSystem) (fuel : Nat) (src dst : String) :
    List FileInfo → Except Err Unit
  | [] => .ok ()
  | f :: rest =>
    if f.isDir then
      match fuel with
      | 0 => .error (.generic "out of fuel")
      | fuel' + 1 =>
        match fs.CopyDir fuel' (pathJoin src f.name) (pathJoin dst f.name)
        with
        | .error e => .error e
        | .ok _ => copyDirLoop fs (fuel' + 1) src dst rest
    else
      match fs.CopyFile (pathJoin src f.name) (pathJoin dst f.name) with
      | .error e => .error e
      | .ok _ => copyDirLoop fs fuel src dst rest
termination_by l => (fuel, 0, sizeOf l)

end

/-- Copy clones a file or directory, dispatching on the source type. -/
def FileSystem.Copy (fs : FileSystem) (fuel : Nat) (src dst : String) :
    Except Err Unit :=
  if !fs.canWrite then .error (.notSupported "Copy")
  else
    match fs.IsFile src with
    | .error e => .error e
    | .ok true => fs.CopyFile src dst
    | .ok false =>
      match fs.IsDir src with
      | .error e => .error e
      | .ok true => fs.CopyDir fuel src dst
      | .ok false => .error (.notExists src)

/-- The per-child loop of CopyAll. -/
def copyAllLoop (fs : FileSystem) (fuel : Nat) (src dst : String) :
    List FileInfo → Except Err Unit
  | [] => .ok ()
  | f :: rest =>
    if f.isDir then
      match fs.CopyDir fuel (pathJoin src f.name) (pathJoin dst f.name) with
      | .error e => .error e
      | .ok _ => copyAllLoop fs fuel src dst rest
    else
      match fs.CopyFile (pathJoin src f.name) (pathJoin dst f.name) with
      | .error e => .error e
      | .ok _ => copyAllLoop fs fuel src dst rest

/-- CopyAll copies all entries contained in src to dst. -/
def FileSystem.CopyAll (fs : FileSystem) (fuel : Nat) (src dst : String) :
    Except Err Unit :=
  if !fs.canWrite then .error (.notSupported "CopyAll")
  else
    match callD1 fs.driver.readDir src with
    | .error e => .error e
    | .ok files => copyAllLoop fs fuel src dst files

/-- GetTempFile returns the path to an empty temporary file. -/
def FileSystem.GetTempFile (fs : FileSystem) (pat : String) :
    Except Err String :=
  if !fs.canTemp then .error (.notSupported "GetTempFile")
  else callD1 fs.driver.getTempFile pat

/-- GetTempDir returns the path to an empty temporary dir. -/
def FileSystem.GetTempDir (fs : FileSystem) (pfx : String) :
    Except Err String :=
  if !fs.canTemp then .error (.notSupported "GetTempDir")
  else callD1 fs.driver.getTempDir pfx

/-- WithTempFile creates a temporary file, runs f on it, and deletes the
file when f returns (deferred os.Remove whose result is discarded).  The
callback and the removal act on an explicit world state σ; the removal
behaviour `osRemove` is a parameter because os.Remove is the host system,
not the library. -/
def FileSystem.WithTempFile {σ : Type} (fs : FileSystem) (pat : String)
    (osRemove : String → σ → σ × Option Err)
    (f : String → σ → σ × Option Err) (s : σ) : σ × Option Err :=
  if !fs.canTemp then (s, some (.notSupported "WithTempFile"))
  else
    match callD1 fs.driver.getTempFile pat with
    | .error e => (s, some e)
    | .ok tmpFile =>
      let r := f tmpFile s
      let r' := osRemove tmpFile r.1
      (r'.1, r.2)

/-- WithTempDir creates a temporary directory, runs f on it, and deletes it
when f returns (deferred os.RemoveAll whose result is discarded). -/
def FileSystem.WithTempDir {σ : Type} (fs : FileSystem) (pfx : String)
    (osRemoveAll : String → σ → σ × Option Err)
    (f : String → σ → σ × Option Err) (s : σ) : σ × Option Err :=
  if !fs.canTemp then (s, some (.notSupported "WithTempDir"))
  else
    match callD1 fs.driver.getTempDir pfx with
    | .error e => (s, some e)
    | .ok tmpDir =>
      let r := f tmpDir s
      let r' := osRemoveAll tmpDir r.1
      (r'.1, r.2)

/-! ## The walker

`Walk` lists a directory through the façade and recursively drives the
three callbacks.  The directory tree reachable from the walk root is given
as an `FTree` forest (the successive `ReadDir` listings, in listing
order); callbacks are stateful functions (Go closures over mutable state),
and every callback invocation is recorded as a `WalkEvent` so that the
theorems can speak about which entries were visited and in which order. -/

/-- A directory tree: what the listings of the driver expose to the walker. -/
inductive FTree where
  | file (name : String) (size : Int)
  | dir (name : String) (children : List FTree)
deriving Repr

/-- The FileInfo the listing produces for an entry (directory sizes are
driver specific and irrelevant to the walker; 0 here). -/
def FTree.info : FTree → FileInfo
  | .file n sz => ⟨n, sz, false⟩
  | .dir n _ => ⟨n, 0, true⟩

/-- One recorded callback invocation. -/
inductive WalkEvent where
  | visit (dir : String) (f : FileInfo)
  | enter (dir : String) (f : FileInfo)
  | leave (dir : String) (f : FileInfo)
deriving DecidableEq, Repr

/-- The three optional walker callbacks (VisitFileHandler,
EnterDirHandler, LeaveDirHandler); `none` is a nil Go handler.  A handler
maps its closure state and the (dir, FileInfo) arguments to the new state
and the returned error; the enter handler additionally yields the value it
stored in the skipDir out-parameter. -/
structure Handlers (σ ε : Type) where
  visit : Option (σ → String → FileInfo → σ × Option ε)
  enter : Option (σ → String → FileInfo → σ × Option ε × Bool)
  leave : Option (σ → String → FileInfo → σ × Option ε)

/-- How one iteration of the walk loop (or the whole loop) ended:
`done` means fall through to the next sibling, `skipStop` is the
`return nil` taken when the enter handler set skipDir, `err e` is
`return err`. -/
inductive WalkRes (ε : Type) where
  | done
  | skipStop
  | err (e : ε)
deriving DecidableEq, Repr

/-- The error value the Go `walk` function actually returns: both normal
loop completion and the skipDir return yield nil. -/
def WalkRes.collapse {ε : Type} : WalkRes ε → Option ε
  | .done => none
  | .skipStop => none
  | .err e => some e

/-- The visit-callback step of the loop body. -/
def visitPhase {σ ε : Type} (H : Handlers σ ε) (s : σ) (dir : String)
    (fi : FileInfo) : σ × List WalkEvent × Option ε :=
  match H.visit with
  | some v =>
    let p := v s dir fi
    (p.1, [.visit dir fi], p.2)
  | none => (s, [], none)

/-- The enter-callback step of the loop body (skipDir starts false and is
reported back only when the handler is present). -/
def enterPhase {σ ε : Type} (H : Handlers σ ε) (s : σ) (dir : String)
    (fi : FileInfo) : σ × List WalkEvent × Option ε × Bool :=
  match H.enter with
  | some en =>
    let p := en s dir fi
    (p.1, [.enter dir fi], p.2.1, p.2.2)
  | none => (s, [], none, false)

/-- The leave-callback step of the loop body. -/
def leavePhase {σ ε : Type} (H : Handlers σ ε) (s : σ) (dir : String)
    (fi : FileInfo) : σ × List WalkEvent × Option ε :=
  match H.leave with
  | some lv =>
    let p := lv s dir fi
    (p.1, [.leave dir fi], p.2)
  | none => (s, [], none)

mutual

/-- The body of the walk loop for one listed entry f of dir: visit
callback, then (unless SkipSubDirs, and only for directories) enter
callback, recursive walk, leave callback; mirrors lines 292-320 of the
source including the `return nil` on skipDir. -/
def walkEntry {σ ε : Type} (H : Handlers σ ε) (skipSubDirs : Bool) (s : σ)
    (dir : String) (f : FTree) : σ × List WalkEvent × WalkRes ε :=
  match visitPhase H s dir f.info with
  | (s1, ev1, some e) => (s1, ev1, .err e)
  | (s1, ev1, none) =>
    if skipSubDirs then (s1, ev1, .done)
    else
      match f with
      | .file _ _ => (s1, ev1, .done)
      | .dir name children =>
        match enterPhase H s1 dir (FTree.dir name children).info with
        | (s2, ev2, some e, _) => (s2, ev1 ++ ev2, .err e)
        | (s2, ev2, none, true) => (s2, ev1 ++ ev2, .skipStop)
        | (s2, ev2, none, false) =>
          match walkList H skipSubDirs s2 (pathJoin dir name) children with
          | (s3, ev3, r3) =>
            match r3.collapse with
            | some e => (s3, ev1 ++ ev2 ++ ev3, .err e)
            | none =>
              match leavePhase H s3 dir (FTree.dir name children).info with
              | (s4, ev4, some e) =>
                (s4, ev1 ++ ev2 ++ ev3 ++ ev4, .err e)
              | (s4, ev4, none) =>
                (s4, ev1 ++ ev2 ++ ev3 ++ ev4, .done)
termination_by sizeOf f

/-- The walk loop over the listing of dir: runs walkEntry on each entry in
listing order, stopping at the first entry that returns out of the
loop. -/
def walkList {σ ε : Type} (H : Handlers σ ε) (skipSubDirs : Bool) (s : σ)
    (dir : String) (l : List FTree) : σ × List WalkEvent × WalkRes ε :=
  match l with
  | [] => (s, [], .done)
  | f :: rest =>
    match walkEntry H skipSubDirs s dir f with
    | (s1, ev1, .done) =>
      match walkList H skipSubDirs s1 dir rest with
      | (s2, ev2, r2) => (s2, ev1 ++ ev2, r2)
    | (s1, ev1, .skipStop) => (s1, ev1, .skipStop)
    | (s1, ev1, .err e) => (s1, ev1, .err e)
termination_by sizeOf l

end

/-- The recursive `walk` function on a directory whose listing is l: the
loop, with its internal outcome collapsed to the returned error (so the
skipDir return is indistinguishable from completion, as in Go). -/
def walkRun {σ ε : Type} (H : Handlers σ ε) (skipSubDirs : Bool) (s : σ)
    (dir : String) (l : List FTree) : σ × List WalkEvent × Option ε :=
  match walkList H skipSubDirs s dir l with
  | (s', ev, r) => (s', ev, r.collapse)

/-! ## Visit-order comparators (comparer.go) -/

/-- FileInfoComparer: negative when f1 should be displayed before f2. -/
abbrev FileInfoComparer : Type := FileInfo → FileInfo → Int

/-- OrderFilesFirst moves files to the top of the list. -/
def OrderFilesFirst : FileInfoComparer := fun f1 f2 =>
  if !f1.isDir && f2.isDir then -1
  else if f1.isDir && !f2.isDir then 1
  else 0

/-- OrderDirectoriesFirst moves directories to the top of the list. -/
def OrderDirectoriesFirst : FileInfoComparer := fun f1 f2 =>
  -(OrderFilesFirst f1 f2)

/-- OrderLexicographicAsc moves elements starting with A to the top. -/
def OrderLexicographicAsc : FileInfoComparer := fun f1 f2 =>
  if f1.name < f2.name then -1
  else if f1.name > f2.name then 1
  else 0

/-- OrderLexicographicDesc moves elements starting with Z to the top. -/
def OrderLexicographicDesc : FileInfoComparer := fun f1 f2 =>
  -(OrderLexicographicAsc f1 f2)

/-- OrderDefault: directories first, then lexicographically ascending. -/
def OrderDefault : FileInfoComparer := fun f1 f2 =>
  if OrderDirectoriesFirst f1 f2 != 0 then OrderDirectoriesFirst f1 f2
  else OrderLexicographicAsc f1 f2

/-- The loop inside the comparer returned by NewCompoundComparer. -/
def compoundLoop (f1 f2 : FileInfo) : List FileInfoComparer → Int
  | [] => 0
  | c :: rest =>
    let order := c f1 f2
    if order != 0 then order else compoundLoop f1 f2 rest

/-- NewCompoundComparer returns a new comparer based on the prioritized
list of compare functions; the first comparer has the highest priority. -/
def NewCompoundComparer (compareFuncs : List FileInfoComparer) :
    FileInfoComparer := fun f1 f2 => compoundLoop f1 f2 compareFuncs

/-- Modelled from the documented contract of the Go function sort.Slice (the Go
standard library is not part of this repository): `Sort(files, cmp)`
reorders files in place into some permutation that is sorted by the less
function `cmp(files[i], files[j]) < 0`; sort.Slice explicitly does NOT
guarantee that the sort is stable.  `SortSpec files cmp out` says that
out is an output sort.Slice is permitted to produce for input files. -/
def SortSpec (files : List FileInfo) (cmp : FileInfoComparer)
    (out : List FileInfo) : Prop :=
  out.Perm files ∧ out.Pairwise (fun a b => ¬ cmp b a < 0)

/-- Stability of a sort output relative to its input: for every reference
entry x, the entries the comparator ranks equal to x appear in the output
in the same relative order as in the input. -/
def StableRetains (cmp : FileInfoComparer) (input out : List FileInfo) :
    Prop :=
  ∀ x : FileInfo, out.filter (fun y => cmp x y == 0) =
    input.filter (fun y => cmp x y == 0)

/-! ## Instrumentation definitions used by the theorems -/

/-- A visit callback closing over a mutable counter (Go closure with an
int variable): it increments the counter on every invocation and returns
the sentinel error E exactly on the N-th visited entry. -/
def countingVisit {ε : Type} (N : Nat) (E : ε) :
    Nat → String → FileInfo → Nat × Option ε :=
  fun n _ _ => (n + 1, if n + 1 = N then some E else none)

/-- Walk with only the counting visit callback registered. -/
def countingHandlers {ε : Type} (N : Nat) (E : ε) : Handlers Nat ε :=
  { visit := some (countingVisit N E), enter := none, leave := none }

mutual

/-- The complete visit order of one listed entry (the entry itself, then
everything below it, depth first), as visit events. -/
def preorderE (dir : String) (f : FTree) : List WalkEvent :=
  WalkEvent.visit dir f.info ::
    (match f with
     | .file _ _ => []
     | .dir name children => preorderL (pathJoin dir name) children)
termination_by sizeOf f

/-- The complete visit order of a listing. -/
def preorderL (dir : String) (l : List FTree) : List WalkEvent :=
  match l with
  | [] => []
  | f :: rest => preorderE dir f ++ preorderL dir rest
termination_by sizeOf l

end

/-- A driver whose dynamic type implements exactly the navigation
interface: all five navigation methods present, nothing else. -/
def navOnlyDriver : Driver where
  exists_ := some (fun _ => .ok true)
  isFile := some (fun _ => .ok false)
  isDir := some (fun _ => .ok true)
  stat := some (fun p => .ok ⟨p, 0, true⟩)
  readDir := some (fun _ => .ok [])
  openFile := none
  createDirectory := none
  deleteFile := none
  deleteDirectory := none
  moveFile := none
  moveDir := none
  getTempFile := none
  getTempDir := none

/-- A façade whose capability flags are navigation-only (the Go constructor
panics on such a driver, so this value is built directly from the struct;
see the theorems on claim C4). -/
def navOnlyFS : FileSystem :=
  ⟨navOnlyDriver, true, false, false, false, DefaultLineDelimiter⟩

/-- A driver implementing the complete method set. -/
def fullDriver : Driver where
  exists_ := some (fun _ => .ok true)
  isFile := some (fun _ => .ok true)
  isDir := some (fun _ => .ok false)
  stat := some (fun p => .ok ⟨p, 1, false⟩)
  readDir := some (fun _ => .ok [])
  openFile := some (fun _ _ => .ok "content")
  createDirectory := some (fun _ => .ok ())
  deleteFile := some (fun _ => .ok ())
  deleteDirectory := some (fun _ _ => .ok ())
  moveFile := some (fun _ _ => .ok ())
  moveDir := some (fun _ _ => .ok ())
  getTempFile := some (fun _ => .ok "/tmp/f")
  getTempDir := some (fun _ => .ok "/tmp/d")

/-- Handlers whose enter callback sets skipDir exactly for the directory
named skipme, counting invocations in the state. -/
def skipHandlers : Handlers Nat Nat where
  visit := some (fun n _ _ => (n + 1, none))
  enter := some (fun n _ fi => (n + 1, none, fi.name == "skipme"))
  leave := some (fun n _ _ => (n + 1, none))

/-! ## Walker lemmas -/

theorem walkList_nil {σ ε : Type} (H : Handlers σ ε) (b : Bool) (s : σ)
    (dir : String) : walkList H b s dir [] = (s, [], .done) := by
  simp [walkList]

theorem walkList_cons_done {σ ε : Type} {H : Handlers σ ε} {b : Bool}
    {s s1 : σ} {dir : String} {f : FTree} {ev1 : List WalkEvent}
    (rest : List FTree)
    (h : walkEntry H b s dir f = (s1, ev1, .done)) :
    walkList H b s dir (f :: rest) =
      ((walkList H b s1 dir rest).1,
       ev1 ++ (walkList H b s1 dir rest).2.1,
       (walkList H b s1 dir rest).2.2) := by
  rcases hw : walkList H b s1 dir rest with ⟨s2, ev2, r2⟩
  simp only [walkList, h, hw]

theorem walkList_cons_skipStop {σ ε : Type} {H : Handlers σ ε} {b : Bool}
    {s s1 : σ} {dir : String} {f : FTree} {ev1 : List WalkEvent}
    (rest : List FTree)
    (h : walkEntry H b s dir f = (s1, ev1, .skipStop)) :
    walkList H b s dir (f :: rest) = (s1, ev1, .skipStop) := by
  simp only [walkList, h]

theorem walkList_cons_err {σ ε : Type} {H : Handlers σ ε} {b : Bool}
    {s s1 : σ} {dir : String} {f : FTree} {ev1 : List WalkEvent} {e : ε}
    (rest : List FTree)
    (h : walkEntry H b s dir f = (s1, ev1, .err e)) :
    walkList H b s dir (f :: rest) = (s1, ev1, .err e) := by
  simp only [walkList, h]

theorem walkList_append_done {σ ε : Type} {H : Handlers σ ε} {b : Bool}
    {dir : String} (pre l : List FTree) {s s1 : σ} {ev1 : List WalkEvent}
    (h : walkList H b s dir pre = (s1, ev1, .done)) :
    walkList H b s dir (pre ++ l) =
      ((walkList H b s1 dir l).1,
       ev1 ++ (walkList H b s1 dir l).2.1,
       (walkList H b s1 dir l).2.2) := by
  induction pre generalizing s ev1 with
  | nil =>
    rw [walkList_nil] at h
    obtain ⟨rfl, rfl⟩ : s1 = s ∧ ev1 = [] := by simpa using h.symm
    simp
  | cons f pre ih =>
    rcases he : walkEntry H b s dir f with ⟨sa, eva, ra⟩
    cases ra with
    | done =>
      rw [walkList_cons_done pre he] at h
      rcases hp : walkList H b sa dir pre with ⟨sb, evb, rb⟩
      rw [hp] at h
      obtain ⟨rfl, rfl, rfl⟩ :
          sb = s1 ∧ eva ++ evb = ev1 ∧ rb = WalkRes.done := by
        simpa using h
      have hstep := ih hp
      rw [List.cons_append, walkList_cons_done (pre ++ l) he, hstep]
      simp
    | skipStop =>
      rw [walkList_cons_skipStop pre he] at h
      simp at h
    | err e =>
      rw [walkList_cons_err pre he] at h
      simp at h

/-- When the visit callback returns nil for a child directory and the
enter callback then returns nil with skipDir set, the loop body ends in
the skipDir return, after exactly the visit and enter invocations for the
child itself: nothing below the child is ever reached, for any contents of
the child. -/
theorem walkEntry_skip_of_enter {σ ε : Type} {H : Handlers σ ε}
    {v : σ → String → FileInfo → σ × Option ε}
    {en : σ → String → FileInfo → σ × Option ε × Bool}
    {s sv s2 : σ} {dir name : String} (children : List FTree)
    (hv : H.visit = some v) (hen : H.enter = some en)
    (hvc : v s dir ⟨name, 0, true⟩ = (sv, none))
    (hskip : en sv dir ⟨name, 0, true⟩ = (s2, none, true)) :
    walkEntry H false s dir (.dir name children) =
      (s2, [.visit dir ⟨name, 0, true⟩, .enter dir ⟨name, 0, true⟩],
       .skipStop) := by
  simp [walkEntry, visitPhase, enterPhase, hv, hen, FTree.info, hvc, hskip]

/-! ## Claims about the walker skip flag -/

/-- C1: when the enter-directory callback sets the skip flag for a child
of the walked directory while later siblings are still unprocessed, the
walk of that directory stops at once and returns a nil error: the result
is independent of the remaining siblings (rest) and of the contents of the
skipped child, and no callback event beyond the visit and enter of the child is
recorded — instead of skipping only that subtree and continuing with the
siblings. -/
theorem walk_skip_terminates_remaining_walk {σ ε : Type} {H : Handlers σ ε}
    {v : σ → String → FileInfo → σ × Option ε}
    {en : σ → String → FileInfo → σ × Option ε × Bool}
    {s s1 sv s2 : σ} {dir name : String} {ev1 : List WalkEvent}
    (pre rest children : List FTree)
    (hv : H.visit = some v) (hen : H.enter = some en)
    (hpre : walkList H false s dir pre = (s1, ev1, .done))
    (hvc : v s1 dir ⟨name, 0, true⟩ = (sv, none))
    (hskip : en sv dir ⟨name, 0, true⟩ = (s2, none, true)) :
    walkRun H false s dir (pre ++ FTree.dir name children :: rest) =
      (s2, ev1 ++ [.visit dir ⟨name, 0, true⟩, .enter dir ⟨name, 0, true⟩],
       none) := by
  have hentry := walkEntry_skip_of_enter children hv hen hvc hskip
  have happ := walkList_append_done pre (FTree.dir name children :: rest)
    hpre
  rw [walkList_cons_skipStop rest hentry] at happ
  simp only [walkRun, happ, WalkRes.collapse]

/-- Witness for C1: with the concrete skip handlers, a walk of the listing
[file a, dir skipme, file z] ends with a nil error right after entering
skipme; the sibling z is never visited. -/
theorem walk_skip_terminates_remaining_walk_witness :
    walkRun skipHandlers false 0 "r"
        ([FTree.file "a" 1] ++
          FTree.dir "skipme" [FTree.file "in" 1] :: [FTree.file "z" 9]) =
      (3, [WalkEvent.visit "r" ⟨"a", 1, false⟩] ++
        [WalkEvent.visit "r" ⟨"skipme", 0, true⟩,
         WalkEvent.enter "r" ⟨"skipme", 0, true⟩], none) :=
  @walk_skip_terminates_remaining_walk Nat Nat skipHandlers
    (fun n _ _ => (n + 1, none))
    (fun n _ fi => (n + 1, none, fi.name == "skipme"))
    0 1 2 3 "r" "skipme" [WalkEvent.visit "r" ⟨"a", 1, false⟩]
    [FTree.file "a" 1] [FTree.file "z" 9] [FTree.file "in" 1]
    rfl rfl
    (by simp [walkList, walkEntry, visitPhase, enterPhase, skipHandlers,
      FTree.info])
    (by simp) (by simp)

/-- C2: when the enter-directory callback sets the skip flag for a child
directory, the walker does not recurse into it: the loop body for that
child ends in the skipDir return after exactly its own visit and
enter callback invocations, whatever the child contains — no visit, enter
or leave callback fires for any entry inside the child. -/
theorem walk_skip_no_recursion_into_child {σ ε : Type} {H : Handlers σ ε}
    {v : σ → String → FileInfo → σ × Option ε}
    {en : σ → String → FileInfo → σ × Option ε × Bool}
    {s sv s2 : σ} {dir name : String} (children : List FTree)
    (hv : H.visit = some v) (hen : H.enter = some en)
    (hvc : v s dir ⟨name, 0, true⟩ = (sv, none))
    (hskip : en sv dir ⟨name, 0, true⟩ = (s2, none, true)) :
    walkEntry H false s dir (.dir name children) =
      (s2, [.visit dir ⟨name, 0, true⟩, .enter dir ⟨name, 0, true⟩],
       .skipStop) :=
  walkEntry_skip_of_enter children hv hen hvc hskip

/-- Witness for C2: entering the concrete directory skipme with a deep
subtree produces only its own visit and enter events. -/
theorem walk_skip_no_recursion_into_child_witness :
    walkEntry skipHandlers false 0 "r"
        (.dir "skipme" [FTree.file "in" 1,
          FTree.dir "sub" [FTree.file "deep" 2]]) =
      (2, [WalkEvent.visit "r" ⟨"skipme", 0, true⟩,
           WalkEvent.enter "r" ⟨"skipme", 0, true⟩], .skipStop) :=
  @walk_skip_no_recursion_into_child Nat Nat skipHandlers
    (fun n _ _ => (n + 1, none))
    (fun n _ fi => (n + 1, none, fi.name == "skipme"))
    0 1 2 "r" "skipme"
    [FTree.file "in" 1, FTree.dir "sub" [FTree.file "deep" 2]]
    rfl rfl (by simp) (by simp)

/-! ## Sentinel error propagation (counting visit callback) -/

theorem visitPhase_counting {ε : Type} (N : Nat) (E : ε) (n : Nat)
    (dir : String) (fi : FileInfo) :
    visitPhase (countingHandlers N E) n dir fi =
      (n + 1, [.visit dir fi], if n + 1 = N then some E else none) := by
  simp [visitPhase, countingHandlers, countingVisit]

theorem enterPhase_counting {ε : Type} (N : Nat) (E : ε) (n : Nat)
    (dir : String) (fi : FileInfo) :
    enterPhase (countingHandlers N E) n dir fi = (n, [], none, false) := by
  simp [enterPhase, countingHandlers]

theorem leavePhase_counting {ε : Type} (N : Nat) (E : ε) (n : Nat)
    (dir : String) (fi : FileInfo) :
    leavePhase (countingHandlers N E) n dir fi = (n, [], none) := by
  simp [leavePhase, countingHandlers]

mutual

theorem walkEntry_counting {ε : Type} (N : Nat) (E : ε) (n : Nat)
    (dir : String) (f : FTree) (h : n < N) :
    walkEntry (countingHandlers N E) false n dir f =
      if N ≤ n + (preorderE dir f).length
      then (N, (preorderE dir f).take (N - n), .err E)
      else (n + (preorderE dir f).length, preorderE dir f, .done) := by
  by_cases hn : n + 1 = N
  · have hlen : 1 ≤ (preorderE dir f).length := by
      cases f <;> simp [preorderE]
    rw [if_pos (by omega)]
    have h1 : N - n = 1 := by omega
    rw [h1]
    cases f with
    | file nm sz =>
      rw [show preorderE dir (FTree.file nm sz)
        = [WalkEvent.visit dir ⟨nm, sz, false⟩] by simp [preorderE, FTree.info]]
      simp [walkEntry, visitPhase_counting, hn, FTree.info]
    | dir nm children =>
      rw [show preorderE dir (FTree.dir nm children)
        = WalkEvent.visit dir ⟨nm, 0, true⟩ ::
            preorderL (pathJoin dir nm) children by simp [preorderE, FTree.info]]
      rw [List.take_succ_cons]
      simp [walkEntry, visitPhase_counting, hn, FTree.info]
  · have hn' : n + 1 < N := by omega
    cases f with
    | file nm sz =>
      have hpe : preorderE dir (FTree.file nm sz)
          = [WalkEvent.visit dir ⟨nm, sz, false⟩] := by
        simp [preorderE, FTree.info]
      rw [if_neg (by rw [hpe]; simp; omega), hpe]
      simp [walkEntry, visitPhase_counting, hn, FTree.info]
    | dir nm children =>
      have hrec := walkList_counting N E (n + 1) (pathJoin dir nm)
        children hn'
      have hpe : preorderE dir (FTree.dir nm children) =
          WalkEvent.visit dir ⟨nm, 0, true⟩ ::
            preorderL (pathJoin dir nm) children := by
        simp [preorderE, FTree.info]
      by_cases hc : N ≤ (n + 1) +
          (preorderL (pathJoin dir nm) children).length
      · rw [if_pos hc] at hrec
        rw [if_pos (by rw [hpe]; simp; omega), hpe]
        have h2 : N - n = (N - (n + 1)) + 1 := by omega
        rw [h2, List.take_succ_cons]
        simp [walkEntry, visitPhase_counting, hn, FTree.info,
          enterPhase_counting, hrec, WalkRes.collapse]
      · rw [if_neg hc] at hrec
        rw [if_neg (by rw [hpe]; simp; omega), hpe]
        simp [walkEntry, visitPhase_counting, hn, FTree.info,
          enterPhase_counting, hrec, WalkRes.collapse, leavePhase_counting]
        omega
termination_by sizeOf f

theorem walkList_counting {ε : Type} (N : Nat) (E : ε) (n : Nat)
    (dir : String) (l : List FTree) (h : n < N) :
    walkList (countingHandlers N E) false n dir l =
      if N ≤ n + (preorderL dir l).length
      then (N, (preorderL dir l).take (N - n), .err E)
      else (n + (preorderL dir l).length, preorderL dir l, .done) := by
  cases l with
  | nil =>
    rw [walkList_nil, if_neg (by simp [preorderL]; omega)]
    simp [preorderL]
  | cons f rest =>
    have hf := walkEntry_counting N E n dir f h
    have hpl : preorderL dir (f :: rest) =
        preorderE dir f ++ preorderL dir rest := by
      simp [preorderL]
    by_cases hc : N ≤ n + (preorderE dir f).length
    · rw [if_pos hc] at hf
      rw [walkList_cons_err rest hf]
      rw [if_pos (by rw [hpl]; simp; omega), hpl,
        List.take_append_of_le_length (by omega)]
    · rw [if_neg hc] at hf
      rw [walkList_cons_done rest hf]
      have hrec := walkList_counting N E (n + (preorderE dir f).length)
        dir rest (by omega)
      by_cases hc2 : N ≤ n + (preorderE dir f).length +
          (preorderL dir rest).length
      · rw [if_pos hc2] at hrec
        rw [hrec]
        have htake : (preorderE dir f).take (N - n) = preorderE dir f :=
          List.take_of_length_le (by omega)
        rw [if_pos (by rw [hpl]; simp; omega), hpl,
          List.take_append_eq_append_take, htake]
        have h3 : N - n - (preorderE dir f).length =
            N - (n + (preorderE dir f).length) := by omega
        rw [h3]
      · rw [if_neg hc2] at hrec
        rw [hrec]
        rw [if_neg (by rw [hpl]; simp; omega), hpl]
        simp
        omega
termination_by sizeOf l

end

/-- C3: a visit callback that returns the sentinel error E on the N-th
visited entry (here the canonical such callback, counting its invocations
in its closure state) makes the walk return exactly that error value E —
the very value, unchanged through all recursion levels — and the recorded
callback invocations are exactly the visits of the first N entries in
depth-first order: no entry after the N-th is visited by any callback. -/
theorem walk_sentinel_error_returned_exactly {ε : Type} (dir : String)
    (l : List FTree) (N : Nat) (E : ε) (h0 : 0 < N)
    (hN : N ≤ (preorderL dir l).length) :
    walkRun (countingHandlers N E) false 0 dir l =
      (N, (preorderL dir l).take N, some E) := by
  have hw := walkList_counting N E 0 dir l h0
  rw [if_pos (by omega)] at hw
  simp only [walkRun, hw, WalkRes.collapse, Nat.sub_zero]

/-- Witness for C3: on a concrete three-entry tree with a nested
directory, the counting callback erroring on the third visit makes the
walk return the sentinel 7 after exactly three visits. -/
theorem walk_sentinel_error_returned_exactly_witness :
    0 < 3 ∧
      3 ≤ (preorderL "r" [FTree.file "a" 1,
        FTree.dir "d" [FTree.file "b" 2], FTree.file "c" 3]).length ∧
      walkRun (countingHandlers 3 (7 : Nat)) false 0 "r"
          [FTree.file "a" 1, FTree.dir "d" [FTree.file "b" 2],
           FTree.file "c" 3] =
        (3, (preorderL "r" [FTree.file "a" 1,
          FTree.dir "d" [FTree.file "b" 2], FTree.file "c" 3]).take 3,
         some 7) :=
  ⟨by decide,
   by simp [preorderL, preorderE, FTree.info],
   walk_sentinel_error_returned_exactly "r" _ 3 7 (by decide)
     (by simp [preorderL, preorderE, FTree.info])⟩

/-! ## Capability gating claims -/

/-- Counterexample for C4: a driver implementing exactly the navigation
interface satisfies none of the read, read-write and temp interfaces, so
NewWithDriver panics (models as none): no façade is ever constructed from
a navigation-only driver, contrary to the premise of the claim. -/
theorem navOnly_driver_construction_panics :
    NavigationDriverOk navOnlyDriver = true ∧
      NewWithDriver navOnlyDriver = none :=
  ⟨rfl, rfl⟩

/-- C4 (amended): for a façade whose capability flags are navigation-only
(canNavigate and none of the others — a flag state NewWithDriver itself
never produces, since it panics on such a driver), every read, write and
temp operation fails with a NotSupported error naming the attempted
operation, and every navigation operation delegates directly to the
driver. -/
theorem navOnly_flags_gate_operations (fs : FileSystem)
    (hnav : fs.canNavigate = true) (hr : fs.canRead = false)
    (hw : fs.canWrite = false) (ht : fs.canTemp = false) :
    (∀ p, fs.Open p = .error (.notSupported "Open")) ∧
    (∀ p flags, flags.IsRead = true →
      fs.OpenFile p flags = .error (.notSupported "OpenFile (read)")) ∧
    (∀ p flags, flags.IsRead = false → flags.IsWrite = true →
      fs.OpenFile p flags = .error (.notSupported "OpenFile (write)")) ∧
    (∀ p, fs.ReadBytes p = .error (.notSupported "ReadBytes")) ∧
    (∀ p, fs.ReadString p = .error (.notSupported "ReadString")) ∧
    (∀ p, fs.ReadLines p = .error (.notSupported "ReadLines")) ∧
    (∀ p, fs.CreateFile p = .error (.notSupported "CreateFile")) ∧
    (∀ p, fs.CreateDirectory p = .error (.notSupported "CreateDirectory")) ∧
    (∀ p c, fs.WriteBytes p c = .error (.notSupported "WriteBytes")) ∧
    (∀ p c, fs.WriteString p c = .error (.notSupported "WriteString")) ∧
    (∀ p ls, fs.WriteLines p ls = .error (.notSupported "WriteLines")) ∧
    (∀ p, fs.DeleteFile p = .error (.notSupported "DeleteFile")) ∧
    (∀ p r, fs.DeleteDirectory p r =
      .error (.notSupported "DeleteDirectory")) ∧
    (∀ d, fs.CleanDir d = .error (.notSupported "CleanDir")) ∧
    (∀ src dst, fs.Move src dst = .error (.notSupported "Move")) ∧
    (∀ src dst, fs.MoveFile src dst = .error (.notSupported "MoveFile")) ∧
    (∀ src dst, fs.MoveDir src dst = .error (.notSupported "MoveDir")) ∧
    (∀ src dst, fs.MoveAll src dst = .error (.notSupported "MoveAll")) ∧
    (∀ fuel src dst, fs.Copy fuel src dst =
      .error (.notSupported "Copy")) ∧
    (∀ src dst, fs.CopyFile src dst = .error (.notSupported "CopyFile")) ∧
    (∀ fuel src dst, fs.CopyDir fuel src dst =
      .error (.notSupported "CopyDir")) ∧
    (∀ fuel src dst, fs.CopyAll fuel src dst =
      .error (.notSupported "CopyAll")) ∧
    (∀ pat, fs.GetTempFile pat = .error (.notSupported "GetTempFile")) ∧
    (∀ pfx, fs.GetTempDir pfx = .error (.notSupported "GetTempDir")) ∧
    (∀ (σ : Type) (pat : String) (rm f : String → σ → σ × Option Err)
      (s : σ), fs.WithTempFile pat rm f s =
        (s, some (.notSupported "WithTempFile"))) ∧
    (∀ (σ : Type) (pfx : String) (rm f : String → σ → σ × Option Err)
      (s : σ), fs.WithTempDir pfx rm f s =
        (s, some (.notSupported "WithTempDir"))) ∧
    (∀ p, fs.Exists p = callD1 fs.driver.exists_ p) ∧
    (∀ p, fs.IsFile p = callD1 fs.driver.isFile p) ∧
    (∀ p, fs.IsDir p = callD1 fs.driver.isDir p) ∧
    (∀ p, fs.Stat p = callD1 fs.driver.stat p) ∧
    (∀ p, fs.ReadDir p = callD1 fs.driver.readDir p) := by
  have h2 : ∀ p flags, flags.IsRead = true →
      fs.OpenFile p flags = .error (.notSupported "OpenFile (read)") := by
    intro p flags hfr
    simp [FileSystem.OpenFile, hfr, hr]
  have h3 : ∀ p flags, flags.IsRead = false → flags.IsWrite = true →
      fs.OpenFile p flags = .error (.notSupported "OpenFile (write)") := by
    intro p flags hfr hfw
    simp [FileSystem.OpenFile, hfr, hfw, hw]
  refine ⟨?_, h2, h3, ?_⟩
  all_goals simp [FileSystem.Open, FileSystem.ReadBytes,
    FileSystem.ReadString, FileSystem.ReadLines, FileSystem.CreateFile,
    FileSystem.CreateDirectory, FileSystem.WriteBytes,
    FileSystem.WriteString, FileSystem.WriteLines, FileSystem.DeleteFile,
    FileSystem.DeleteDirectory, FileSystem.CleanDir, FileSystem.Move,
    FileSystem.MoveFile, FileSystem.MoveDir, FileSystem.MoveAll,
    FileSystem.Copy, FileSystem.CopyFile, FileSystem.CopyDir,
    FileSystem.CopyAll, FileSystem.GetTempFile, FileSystem.GetTempDir,
    FileSystem.WithTempFile, FileSystem.WithTempDir, FileSystem.Exists,
    FileSystem.IsFile, FileSystem.IsDir, FileSystem.Stat,
    FileSystem.ReadDir, hnav, hr, hw, ht]

/-- Witness for C4 (amended): the concrete navigation-only façade rejects
a read operation with NotSupported and answers Exists through its
driver. -/
theorem navOnly_flags_gate_operations_witness :
    navOnlyFS.ReadBytes "a.txt" = .error (.notSupported "ReadBytes") :=
  ((navOnly_flags_gate_operations navOnlyFS rfl rfl rfl rfl).2.2.2.1) "a.txt"

/-- C8: for every driver accepted by NewWithDriver, the stored capability
flags are exactly the four interface probes, and they satisfy the nesting
canTemp implies canWrite implies canRead implies canNavigate (the
capability interfaces embed each other, so a method set satisfying a
larger interface satisfies every smaller one).  The flags are fields
written only by the constructor; no façade operation produces a modified
FileSystem value, mirroring that no method of the Go type assigns them. -/
theorem capability_flags_nested (d : Driver) (fs : FileSystem)
    (h : NewWithDriver d = some fs) :
    fs.canNavigate = NavigationDriverOk d ∧
    fs.canRead = ReadDriverOk d ∧
    fs.canWrite = ReadWriteDriverOk d ∧
    fs.canTemp = TempDriverOk d ∧
    (fs.canTemp = true → fs.canWrite = true) ∧
    (fs.canWrite = true → fs.canRead = true) ∧
    (fs.canRead = true → fs.canNavigate = true) := by
  unfold NewWithDriver at h
  split at h
  · exact absurd h (by simp)
  · injection h with h'
    subst h'
    refine ⟨rfl, rfl, rfl, rfl, ?_, ?_, ?_⟩
    · intro hT
      simp only [TempDriverOk, Bool.and_eq_true] at hT
      exact hT.1.1
    · intro hW
      simp only [ReadWriteDriverOk, Bool.and_eq_true] at hW
      exact hW.1.1.1.1.1
    · intro hR
      simp only [ReadDriverOk, Bool.and_eq_true] at hR
      exact hR.1

/-- Witness for C8: the complete driver constructs a façade whose read
flag entails its navigation flag. -/
theorem capability_flags_nested_witness :
    (⟨fullDriver, true, true, true, true,
        DefaultLineDelimiter⟩ : FileSystem).canNavigate = true :=
  (capability_flags_nested fullDriver _ rfl).2.2.2.2.2.2 rfl

/-- C9: once the temporary resource was created, WithTempFile and
WithTempDir return exactly the value the callback returns (nil or the
error of the callback), for every possible behaviour of the deferred deletion —
a failing deletion is swallowed and never alters or replaces the returned
value. -/
theorem withTemp_returns_callback_result {σ : Type} (fs : FileSystem)
    (pat pfx : String) (rmF rmD : String → σ → σ × Option Err)
    (f g : String → σ → σ × Option Err) (s : σ) (tmpF tmpD : String)
    (ht : fs.canTemp = true)
    (hgf : callD1 fs.driver.getTempFile pat = .ok tmpF)
    (hgd : callD1 fs.driver.getTempDir pfx = .ok tmpD) :
    (fs.WithTempFile pat rmF f s).2 = (f tmpF s).2 ∧
    (fs.WithTempDir pfx rmD g s).2 = (g tmpD s).2 := by
  constructor
  · simp [FileSystem.WithTempFile, ht, hgf]
  · simp [FileSystem.WithTempDir, ht, hgd]

/-- Witness for C9: with the complete driver, a callback returning a
sentinel error keeps exactly that error even though the deletion of the
temporary file also fails. -/
theorem withTemp_returns_callback_result_witness :
    ((⟨fullDriver, true, true, true, true,
        DefaultLineDelimiter⟩ : FileSystem).WithTempFile "pat"
      (fun _ n => (n, some (.accessDenied "/tmp/f")))
      (fun _ n => (n + 1, some (.sentinel 3))) (0 : Nat)).2 =
      ((fun (_ : String) (n : Nat) => (n + 1, some (Err.sentinel 3)))
        "/tmp/f" 0).2 :=
  (withTemp_returns_callback_result
    ⟨fullDriver, true, true, true, true, DefaultLineDelimiter⟩
    "pat" "pfx" (fun _ n => (n, some (.accessDenied "/tmp/f")))
    (fun _ n => (n, none))
    (fun _ n => (n + 1, some (.sentinel 3))) (fun _ n => (n, none))
    0 "/tmp/f" "/tmp/d" rfl rfl rfl).1

/-! ## Comparator claims -/

theorem compoundLoop_all_zero (f1 f2 : FileInfo) :
    ∀ cs : List FileInfoComparer, (∀ c ∈ cs, c f1 f2 = 0) →
      compoundLoop f1 f2 cs = 0 := by
  intro cs
  induction cs with
  | nil => intro _; simp [compoundLoop]
  | cons c rest ih =>
    intro h
    have hc : c f1 f2 = 0 := h c (by simp)
    simp only [compoundLoop, hc]
    simpa using ih (fun c' hc' => h c' (by simp [hc']))

theorem compoundLoop_first_nonzero (f1 f2 : FileInfo)
    (c : FileInfoComparer) (post : List FileInfoComparer) :
    ∀ pre : List FileInfoComparer, (∀ c' ∈ pre, c' f1 f2 = 0) →
      c f1 f2 ≠ 0 → compoundLoop f1 f2 (pre ++ c :: post) = c f1 f2 := by
  intro pre
  induction pre with
  | nil =>
    intro _ hc
    simp [compoundLoop, hc]
  | cons p pre ih =>
    intro h hc
    have hp : p f1 f2 = 0 := h p (by simp)
    simp only [List.cons_append, compoundLoop, hp]
    simpa using ih (fun c' hc' => h c' (by simp [hc'])) hc

/-- C6: the comparer built by NewCompoundComparer returns the result of
the first comparer in priority order whose result is non-zero, and 0 when
every chained comparer returns 0. -/
theorem newCompoundComparer_first_nonzero (cs : List FileInfoComparer)
    (f1 f2 : FileInfo) :
    ((∀ c ∈ cs, c f1 f2 = 0) → NewCompoundComparer cs f1 f2 = 0) ∧
    (∀ pre c post, cs = pre ++ c :: post → (∀ c' ∈ pre, c' f1 f2 = 0) →
      c f1 f2 ≠ 0 → NewCompoundComparer cs f1 f2 = c f1 f2) := by
  constructor
  · intro h
    exact compoundLoop_all_zero f1 f2 cs h
  · intro pre c post hsplit hpre hc
    rw [NewCompoundComparer, hsplit]
    exact compoundLoop_first_nonzero f1 f2 c post pre hpre hc

/-- Witness for C6: files-first ranks two plain files equal, so the
compound of files-first and a size comparer returns the size result. -/
theorem newCompoundComparer_first_nonzero_witness :
    NewCompoundComparer
        [OrderFilesFirst, fun a b => a.size - b.size]
        ⟨"a", 1, false⟩ ⟨"b", 2, false⟩ =
      (fun (a b : FileInfo) => a.size - b.size)
        ⟨"a", 1, false⟩ ⟨"b", 2, false⟩ :=
  (newCompoundComparer_first_nonzero
      [OrderFilesFirst, fun a b => a.size - b.size]
      ⟨"a", 1, false⟩ ⟨"b", 2, false⟩).2
    [OrderFilesFirst] (fun a b => a.size - b.size) [] rfl
    (by
      intro c' hc'
      simp only [List.mem_singleton] at hc'
      subst hc'
      decide)
    (by decide)

/-- C5 refutation (the code is the bug): Sort delegates to sort.Slice,
whose contract does not require stability; on the concrete input
[file b, file a] with the directories-first comparator (which ranks the
two files equal), the output [file a, file b] satisfies everything
sort.Slice guarantees, yet the equal-ranked entries no longer retain
their input order — so the code does not ensure the claimed stability
(sort.SliceStable would). -/
theorem sortSlice_contract_allows_unstable_output :
    SortSpec [⟨"b", 2, false⟩, ⟨"a", 1, false⟩] OrderDirectoriesFirst
        [⟨"a", 1, false⟩, ⟨"b", 2, false⟩] ∧
      ¬ StableRetains OrderDirectoriesFirst
        [⟨"b", 2, false⟩, ⟨"a", 1, false⟩]
        [⟨"a", 1, false⟩, ⟨"b", 2, false⟩] := by
  constructor
  · constructor
    · decide
    · decide
  · intro hstab
    have hb := hstab ⟨"b", 2, false⟩
    exact absurd hb (by decide)

/-! ## Line splitting and joining -/

theorem replaceCRLF_cons_ne (c : Char) (l : List Char) (hc : c ≠ '\r') :
    replaceCRLF (c :: l) = c :: replaceCRLF l := by
  rw [replaceCRLF.eq_def]
  split
  · simp_all
  · simp_all
  · next c2 rest heq =>
      injection heq with h1 h2
      subst h1
      subst h2
      rfl

theorem replaceCRLF_of_not_mem (l : List Char) :
    '\r' ∉ l → replaceCRLF l = l := by
  induction l with
  | nil => intro _; rfl
  | cons c rest ih =>
    intro h
    simp only [List.mem_cons, not_or] at h
    rw [replaceCRLF_cons_ne c rest (fun hh => h.1 hh.symm), ih h.2]

theorem replaceCR_of_not_mem (l : List Char) :
    '\r' ∉ l → replaceCR l = l := by
  induction l with
  | nil => intro _; rfl
  | cons c rest ih =>
    intro h
    simp only [List.mem_cons, not_or] at h
    have htail := ih h.2
    simp only [replaceCR, List.map_cons] at htail ⊢
    rw [if_neg (fun hh => h.1 hh.symm), htail]

theorem splitLF_cons_nl (l : List Char) :
    splitLF ('\n' :: l) = [] :: splitLF l := rfl

theorem splitLF_cons_ne (c : Char) (l : List Char) (hc : c ≠ '\n') :
    splitLF (c :: l) =
      match splitLF l with
      | [] => [[c]]
      | s :: ss => (c :: s) :: ss := by
  rw [splitLF.eq_def]
  split
  · simp_all
  · simp_all
  · next c2 rest hne heq =>
      injection heq with h1 h2
      subst h1
      subst h2
      rfl

theorem splitLF_ne_nil (l : List Char) : splitLF l ≠ [] := by
  induction l with
  | nil => simp [splitLF]
  | cons c rest ih =>
    by_cases hc : c = '\n'
    · subst hc
      simp [splitLF_cons_nl]
    · rw [splitLF_cons_ne c rest hc]
      rcases h : splitLF rest with - | ⟨s, ss⟩ <;> simp

theorem splitLF_append_not_mem (l : List Char) :
    '\n' ∉ l → ∀ t s ss, splitLF t = s :: ss →
      splitLF (l ++ t) = (l ++ s) :: ss := by
  induction l with
  | nil =>
    intro _ t s ss h
    simpa using h
  | cons c rest ih =>
    intro h t s ss ht
    simp only [List.mem_cons, not_or] at h
    have hc : c ≠ '\n' := fun hh => h.1 hh.symm
    rw [List.cons_append, splitLF_cons_ne c (rest ++ t) hc,
      ih h.2 t s ss ht]
    rfl

theorem splitLF_of_not_mem (l : List Char) (h : '\n' ∉ l) :
    splitLF l = [l] := by
  have := splitLF_append_not_mem l h [] [] [] rfl
  simpa using this

theorem splitLF_length (l : List Char) :
    (splitLF l).length = l.count '\n' + 1 := by
  induction l with
  | nil => rfl
  | cons c rest ih =>
    by_cases hc : c = '\n'
    · subst hc
      simp [splitLF_cons_nl, ih, List.count_cons]
    · rw [splitLF_cons_ne c rest hc]
      rcases h : splitLF rest with - | ⟨s, ss⟩
      · exact absurd h (splitLF_ne_nil rest)
      · rw [h] at ih
        simp only [List.length_cons] at ih ⊢
        rw [List.count_cons, if_neg (by simp [hc])]
        omega

theorem joinSep_cons2 (sep l l2 : List Char) (rest : List (List Char)) :
    joinSep sep (l :: l2 :: rest) = l ++ sep ++ joinSep sep (l2 :: rest) :=
  rfl

theorem not_mem_joinSep (c : Char) (sep : List Char) (hsep : c ∉ sep) :
    ∀ ls : List (List Char), (∀ l ∈ ls, c ∉ l) → c ∉ joinSep sep ls := by
  intro ls
  induction ls with
  | nil =>
    intro _
    simp [joinSep]
  | cons l rest ih =>
    intro h
    cases rest with
    | nil => simpa [joinSep] using h l (by simp)
    | cons l2 rest2 =>
      rw [joinSep_cons2]
      simp only [List.append_assoc, List.mem_append, not_or]
      exact ⟨h l (by simp), hsep, ih (fun x hx => h x (by simp [hx]))⟩

theorem splitLF_joinSep (ls : List (List Char)) (hne : ls ≠ [])
    (h : ∀ l ∈ ls, '\n' ∉ l) : splitLF (joinSep ['\n'] ls) = ls := by
  induction ls with
  | nil => exact absurd rfl hne
  | cons l rest ih =>
    cases rest with
    | nil =>
      exact splitLF_of_not_mem l (h l (by simp))
    | cons l2 rest2 =>
      rw [joinSep_cons2]
      have hrec := ih (by simp) (fun x hx => h x (by simp [hx]))
      have hJ : splitLF ('\n' :: joinSep ['\n'] (l2 :: rest2)) =
          [] :: (l2 :: rest2) := by rw [splitLF_cons_nl, hrec]
      have hstep := splitLF_append_not_mem l (h l (by simp))
        ('\n' :: joinSep ['\n'] (l2 :: rest2)) [] (l2 :: rest2) hJ
      rw [List.append_assoc]
      simpa using hstep

/-- C7: with the default LF separator, WriteLines on the list
[foo, bar, empty, yeah!, empty] produces exactly the content
foo LF bar LF LF yeah! LF (no separator is appended beyond what the input
list implies), ReadLines maps that content back to the original
five-element list, and in general ReadLines is a left inverse of
WriteLines for every nonempty list of lines free of LF and CR
characters. -/
theorem writeLines_readLines_roundtrip :
    writeLinesContent DefaultLineDelimiter ["foo", "bar", "", "yeah!", ""] =
      "foo\nbar\n\nyeah!\n" ∧
    readLinesOfContent "foo\nbar\n\nyeah!\n" =
      ["foo", "bar", "", "yeah!", ""] ∧
    (∀ lines : List String, lines ≠ [] →
      (∀ s ∈ lines, ∀ c ∈ s.toList, c ≠ '\n' ∧ c ≠ '\r') →
      readLinesOfContent (writeLinesContent DefaultLineDelimiter lines) =
        lines) := by
  refine ⟨rfl, rfl, ?_⟩
  intro lines hne h
  have hnoCR : '\r' ∉ joinSep ['\n'] (lines.map String.toList) := by
    refine not_mem_joinSep '\r' ['\n'] (by decide) _ ?_
    intro x hx
    simp only [List.mem_map] at hx
    obtain ⟨s, hs, rfl⟩ := hx
    intro hmem
    exact (h s hs '\r' hmem).2 rfl
  have hnoNL : ∀ x ∈ lines.map String.toList, '\n' ∉ x := by
    intro x hx
    simp only [List.mem_map] at hx
    obtain ⟨s, hs, rfl⟩ := hx
    intro hmem
    exact (h s hs '\n' hmem).1 rfl
  have hJ : (writeLinesContent DefaultLineDelimiter lines).toList =
      joinSep ['\n'] (lines.map String.toList) := rfl
  unfold readLinesOfContent
  rw [hJ, replaceCRLF_of_not_mem _ hnoCR, replaceCR_of_not_mem _ hnoCR,
    splitLF_joinSep _ (by simpa using hne) hnoNL, List.map_map]
  have hid : (List.asString ∘ String.toList) = id := funext (fun s => rfl)
  rw [hid, List.map_id]

/-- Witness for C7: the round trip on the concrete five-element list. -/
theorem writeLines_readLines_roundtrip_witness :
    readLinesOfContent (writeLinesContent DefaultLineDelimiter
        ["foo", "bar", "", "yeah!", ""]) =
      ["foo", "bar", "", "yeah!", ""] :=
  writeLines_readLines_roundtrip.2.2 ["foo", "bar", "", "yeah!", ""]
    (by decide) (by decide)

/-- C10: on a readable façade, ReadLines returns the content split after
normalization; the result always has exactly one element more than the
number of normalized line terminators, is therefore never empty, and on
the empty content it is the one-element list holding the empty string. -/
theorem readLines_line_count (fs : FileSystem) (p content : String)
    (hr : fs.canRead = true)
    (hopen : callD2 fs.driver.openFile p OpenReadOnly = .ok content) :
    fs.ReadLines p = .ok (readLinesOfContent content) ∧
    (readLinesOfContent content).length =
      (replaceCR (replaceCRLF content.toList)).count '\n' + 1 ∧
    readLinesOfContent content ≠ [] ∧
    (content = "" → fs.ReadLines p = .ok [""]) := by
  have h1 : fs.ReadLines p = .ok (readLinesOfContent content) := by
    simp [FileSystem.ReadLines, FileSystem.ReadString,
      FileSystem.ReadBytes, FileSystem.Open, Except.map, hr, hopen]
  refine ⟨h1, ?_, ?_, ?_⟩
  · simp [readLinesOfContent, splitLF_length]
  · simp only [readLinesOfContent, ne_eq, List.map_eq_nil_iff]
    exact splitLF_ne_nil _
  · intro hc
    subst hc
    rw [h1]
    rfl

/-- Witness for C10: the complete driver serves the content of any file as
the string content, and ReadLines splits it. -/
theorem readLines_line_count_witness :
    (⟨fullDriver, true, true, true, true, DefaultLineDelimiter⟩ :
        FileSystem).ReadLines "p" = .ok (readLinesOfContent "content") :=
  (readLines_line_count
    ⟨fullDriver, true, true, true, true, DefaultLineDelimiter⟩
    "p" "content" rfl rfl).1
